import Mathlib

set_option linter.unusedVariables false

/-!
Verification of the auto-mode scheduling core of `lytv/automaker`
(`src/app/electron/auto-mode-service.js`) against its natural-language
specification.

The service is shallowly embedded: every boundary operation of the
`AutoModeService` class is translated into a pure Lean function that
threads the registry state (`this.runningFeatures`, modelled as a list of
feature ids) explicitly and returns the ordered list of observable side
effects (store writes, lifecycle events, executor invocations, registry
mutations) as an event trace, together with the value returned or the
error thrown.  External collaborators (store loads, executor results,
verifier results, git commits) are oracles passed in as parameters.
-/

/-- Feature lifecycle status, as the string statuses used by the service
(`"backlog"`, `"in_progress"`, `"waiting_approval"`, `"verified"`,
`"completed"`). -/
inductive Status where
  | backlog
  | in_progress
  | waiting_approval
  | verified
  | completed
deriving DecidableEq, Repr

/-- An item of the kanban board as the scheduling code reads it: id,
status, declared dependency ids, and the `skipTests` flag.  Payload data
(description, category) is irrelevant to scheduling and omitted. -/
structure Feature where
  id : String
  status : Status
  dependencies : List String
  skipTests : Bool
deriving DecidableEq, Repr

/-- The executor result `{ passes, message }`. -/
structure RunResult where
  passes : Bool
  message : String
deriving DecidableEq, Repr

/-- Observable side effects of one operation of the service, in program
order: lifecycle events sent to the renderer, store status writes,
context-file appends, executor/verifier/commit invocations, and the
registry (`this.runningFeatures`) insertions and deletions. -/
inductive Event where
  | registryAdd (id : String)
  | registryDelete (id : String)
  | setStatus (id : String) (s : Status)
  | featureStart (id : String)
  | progress (id : String)
  | featureComplete (id : String) (passes : Bool)
  | errorEvent (id : String)
  | contextAppend (id : String)
  | invokeExec (id : String)
  | invokeVerify (id : String)
  | invokeCommit (id : String)
deriving DecidableEq, Repr

/-- Modelled from the spec: `getBlockingDependencies(item, allItems)` of
the `@automaker/dependency-resolver` package, whose source is not in the
repository snapshot (only its UI callers, e.g.
`apps/ui/src/components/views/graph-view/hooks/use-graph-nodes.ts`, use
it).  Spec 4.1: a dependency id is blocking unless the dependency
item exists in `allItems` AND its status is in the satisfied set
`{completed, verified}`; ids absent from `allItems` are dropped silently. -/
def getBlockingDependencies (item : Feature) (allItems : List Feature) : List String :=
  item.dependencies.filter (fun depId =>
    match allItems.find? (fun f => f.id == depId) with
    | some dep => !(dep.status == Status.completed || dep.status == Status.verified)
    | none => false)

/-- The selection logic of `checkAndStartFeatures` (auto-mode-service.js
lines 438-474): compute `availableSlots = maxConcurrency - runningCount`,
return nothing when no slot is free, otherwise take up to `availableSlots`
features whose status is `backlog`, in store order.  (The JS subtraction
is on ordinary numbers and may be negative, hence the `Int`.) -/
def checkAndStartSelection (maxConcurrency runningCount : Nat)
    (features : List Feature) : List Feature :=
  if (maxConcurrency : Int) - (runningCount : Int) ≤ 0 then []
  else if (features.filter (fun f => f.status == Status.backlog)).isEmpty then []
  else (features.filter (fun f => f.status == Status.backlog)).take
    ((maxConcurrency : Int) - (runningCount : Int)).toNat

/-- The registry insertion `this.runningFeatures.set(featureId, execution)`:
a `Map.set` adds the key when absent and only overwrites the value when the
key is present, so the key set gains `id` iff it was absent. -/
def registrySet (running : List String) (id : String) : List String :=
  if running.contains id then running else id :: running

/-- The registry removal `this.runningFeatures.delete(featureId)`: a
`Map.delete`, which removes the key when present and is a no-op (returning
`false`, never throwing) when absent. -/
def releaseReg (running : List String) (id : String) : List String :=
  running.filter (fun x => !(x == id))

/-- Replays the registry mutations of an event trace from an initial
registry, to observe the set of live execution handles at intermediate
instants of an operation. -/
def replayRegistry (running : List String) : List Event → List String
  | [] => running
  | Event.registryAdd id :: rest => replayRegistry (registrySet running id) rest
  | Event.registryDelete id :: rest => replayRegistry (releaseReg running id) rest
  | _ :: rest => replayRegistry running rest

/-- The store status writes `(id, status)` occurring in a trace, in order
(the `featureLoader.updateFeatureStatus` calls). -/
def statusWrites : List Event → List (String × Status)
  | [] => []
  | Event.setStatus i s :: rest => (i, s) :: statusWrites rest
  | _ :: rest => statusWrites rest

/-- Number of executor invocations for `id` in a trace. -/
def countInvoke (id : String) : List Event → Nat
  | [] => 0
  | Event.invokeExec i :: rest => (if i == id then 1 else 0) + countInvoke id rest
  | _ :: rest => countInvoke id rest

/-- `true` iff every executor invocation for `id` in the trace is preceded
by a store write of `in_progress` for `id` (the second argument accumulates
whether such a write has been seen). -/
def execGuarded (id : String) : List Event → Bool → Bool
  | [], _ => true
  | Event.setStatus i s :: rest, seen =>
      execGuarded id rest (seen || (i == id && s == Status.in_progress))
  | Event.invokeExec i :: rest, seen =>
      (!(i == id) || seen) && execGuarded id rest seen
  | _ :: rest, seen => execGuarded id rest seen

/-- Applies the status writes of a trace to a loaded item list (the effect
of the `updateFeatureStatus` calls on the external store). -/
def applyEvents (features : List Feature) (evs : List Event) : List Feature :=
  evs.foldl (fun fs e =>
    match e with
    | Event.setStatus id s => fs.map (fun f => if f.id == id then { f with status := s } else f)
    | _ => fs) features

/-- `runFeature` (auto-mode-service.js lines 112-194): the manual
single-feature run.  Throws `AlreadyRunning` when the id already holds a
handle; otherwise registers the handle, loads the store (`features`),
throws `NotFound` if the id is absent, writes `in_progress`, emits the
start event, invokes the executor once (`exec` is its outcome: a thrown
error or a `RunResult`), writes the result status
(`waiting_approval`/`verified` on pass by `skipTests`, `backlog` on fail),
emits the completion event, and deletes the handle in a `finally` block
on every path after registration. -/
def runFeature (running : List String) (featureId : String) (features : List Feature)
    (exec : Except String RunResult) : List Event × Except String Bool :=
  if running.contains featureId then
    ([], Except.error ("Feature " ++ featureId ++ " is already running"))
  else
    match features.find? (fun f => f.id == featureId) with
    | none =>
      ([Event.registryAdd featureId, Event.errorEvent featureId, Event.registryDelete featureId],
       Except.error ("Feature " ++ featureId ++ " not found"))
    | some feature =>
      match exec with
      | Except.error e =>
        ([Event.registryAdd featureId, Event.setStatus featureId Status.in_progress,
          Event.featureStart featureId, Event.invokeExec featureId,
          Event.errorEvent featureId, Event.registryDelete featureId],
         Except.error e)
      | Except.ok result =>
        ([Event.registryAdd featureId, Event.setStatus featureId Status.in_progress,
          Event.featureStart featureId, Event.invokeExec featureId,
          Event.setStatus feature.id
            (if result.passes
             then (if feature.skipTests then Status.waiting_approval else Status.verified)
             else Status.backlog),
          Event.featureComplete feature.id result.passes,
          Event.registryDelete featureId],
         Except.ok result.passes)

/-- `startFeatureAsync` (lines 483-556): the admission dispatch of one
selected feature.  Skips silently when the id already holds a handle;
otherwise registers, writes `in_progress`, emits start, invokes the
executor, writes the result status exactly as `runFeature` does, and
deletes the handle in `finally`; a thrown executor error is caught (error
event) and not re-thrown.  Returns the trace and the registry after the
run terminates. -/
def startFeatureAsync (running : List String) (feature : Feature)
    (exec : Except String RunResult) : List Event × List String :=
  if running.contains feature.id then ([], running)
  else
    match exec with
    | Except.error _ =>
      ([Event.registryAdd feature.id, Event.setStatus feature.id Status.in_progress,
        Event.featureStart feature.id, Event.invokeExec feature.id,
        Event.errorEvent feature.id, Event.registryDelete feature.id], running)
    | Except.ok result =>
      ([Event.registryAdd feature.id, Event.setStatus feature.id Status.in_progress,
        Event.featureStart feature.id, Event.invokeExec feature.id,
        Event.setStatus feature.id
          (if result.passes
           then (if feature.skipTests then Status.waiting_approval else Status.verified)
           else Status.backlog),
        Event.featureComplete feature.id result.passes,
        Event.registryDelete feature.id], running)

/-- One admission tick's dispatch: `checkAndStartFeatures` calls
`startFeatureAsync` for each selected feature, without awaiting, and each
per-feature task catches its own errors (lines 471-477). The sequential
composition models that no task's failure reaches another task. -/
def dispatchAll (running : List String) (exec : String → Except String RunResult) :
    List Feature → List Event
  | [] => []
  | f :: rest =>
      (startFeatureAsync running f (exec f.id)).1
        ++ dispatchAll (startFeatureAsync running f (exec f.id)).2 exec rest

/-- The synchronous registration prefix of one admission tick: every
selected feature is registered (subject to `startFeatureAsync`'s
already-running skip) before any of the dispatched runs proceeds past its
first await; the registry high-water mark of a tick. -/
def tickReserve (maxConcurrency : Nat) (running : List String)
    (features : List Feature) : List String :=
  (checkAndStartSelection maxConcurrency running.length features).foldl
    (fun r f => registrySet r f.id) running

/-- The auto-retry loop of `resumeFeature` (lines 329-375):
`while (!finalResult.passes && attempts < maxAttempts)` re-load the store
(`loads (attempts+1)`), and if the feature is found with status still
`in_progress`, increment `attempts`, append a retry marker to the context
file, emit a progress event, and re-invoke the executor
(`exec (attempts+1)`), which may throw; otherwise break.  `fuel` is
`maxAttempts - attempts`, so the loop guard `attempts < maxAttempts` is
`fuel > 0`.  Returns the loop's trace, the final `attempts`, and the final
result (`Except.error` when a retry invocation threw). -/
def resumeLoop (loads : Nat → List Feature) (exec : Nat → Except String RunResult)
    (featureId : String) : Nat → Nat → RunResult → List Event × Nat × Except String RunResult
  | 0, attempts, res => ([], attempts, Except.ok res)
  | fuel+1, attempts, res =>
    if res.passes then ([], attempts, Except.ok res)
    else
      match (loads (attempts+1)).find? (fun f => f.id == featureId) with
      | none => ([], attempts, Except.ok res)
      | some f =>
        if f.status == Status.in_progress then
          match exec (attempts+1) with
          | Except.error e =>
            ([Event.contextAppend featureId, Event.progress featureId,
              Event.invokeExec featureId], attempts+1, Except.error e)
          | Except.ok r =>
            let rest := resumeLoop loads exec featureId fuel (attempts+1) r
            (Event.contextAppend featureId :: Event.progress featureId ::
              Event.invokeExec featureId :: rest.1, rest.2.1, rest.2.2)
        else ([], attempts, Except.ok res)

/-- `resumeFeature` (lines 278-413): the manual resume.  Throws
`AlreadyRunning` when the id holds a handle; otherwise registers, loads
the store (`loads 0`), throws `NotFound` if absent, emits start, reads the
context file and invokes the executor once (`exec 0`) WITHOUT any prior
status write, then runs the auto-retry loop (`resumeLoop`, `maxAttempts`
3, `attempts` 0), and finally writes `waiting_approval`/`verified` on pass
by `skipTests` or `in_progress` on failure, emits completion, and deletes
the handle in `finally` on every path after registration. -/
def resumeFeature (running : List String) (featureId : String)
    (loads : Nat → List Feature) (exec : Nat → Except String RunResult) :
    List Event × Except String Bool :=
  if running.contains featureId then
    ([], Except.error ("Feature " ++ featureId ++ " is already running"))
  else
    match (loads 0).find? (fun f => f.id == featureId) with
    | none =>
      ([Event.registryAdd featureId, Event.errorEvent featureId, Event.registryDelete featureId],
       Except.error ("Feature " ++ featureId ++ " not found"))
    | some feature =>
      match exec 0 with
      | Except.error e =>
        ([Event.registryAdd featureId, Event.featureStart featureId, Event.invokeExec featureId,
          Event.errorEvent featureId, Event.registryDelete featureId],
         Except.error e)
      | Except.ok result =>
        match resumeLoop loads exec featureId 3 0 result with
        | (evs, _, Except.error e) =>
          ([Event.registryAdd featureId, Event.featureStart featureId, Event.invokeExec featureId]
            ++ evs ++ [Event.errorEvent featureId, Event.registryDelete featureId],
           Except.error e)
        | (evs, _, Except.ok finalResult) =>
          ([Event.registryAdd featureId, Event.featureStart featureId, Event.invokeExec featureId]
            ++ evs
            ++ [Event.setStatus featureId
                  (if finalResult.passes
                   then (if feature.skipTests then Status.waiting_approval else Status.verified)
                   else Status.in_progress),
                Event.featureComplete featureId finalResult.passes,
                Event.registryDelete featureId],
           Except.ok finalResult.passes)

/-- `followUpFeature` plus its background worker `runFollowUpWork` (lines
643-772): throws `AlreadyRunning` when the id holds a handle; otherwise
registers, loads, and in the background: on `NotFound` emits an error
event (not re-thrown to the caller), else writes `in_progress`, emits
start, appends the follow-up prompt to the context file, invokes the
executor once, writes `waiting_approval`/`verified` on pass by `skipTests`
or `in_progress` on failure, emits completion; caught errors emit an error
event; the handle is deleted in `finally`. -/
def followUpFeature (running : List String) (featureId : String) (features : List Feature)
    (exec : Except String RunResult) : List Event × Except String Unit :=
  if running.contains featureId then
    ([], Except.error ("Feature " ++ featureId ++ " is already running"))
  else
    match features.find? (fun f => f.id == featureId) with
    | none =>
      ([Event.registryAdd featureId, Event.errorEvent featureId, Event.registryDelete featureId],
       Except.ok ())
    | some feature =>
      match exec with
      | Except.error _ =>
        ([Event.registryAdd featureId, Event.setStatus featureId Status.in_progress,
          Event.featureStart featureId, Event.contextAppend featureId,
          Event.invokeExec featureId,
          Event.errorEvent featureId, Event.registryDelete featureId],
         Except.ok ())
      | Except.ok result =>
        ([Event.registryAdd featureId, Event.setStatus featureId Status.in_progress,
          Event.featureStart featureId, Event.contextAppend featureId,
          Event.invokeExec featureId,
          Event.setStatus featureId
            (if result.passes
             then (if feature.skipTests then Status.waiting_approval else Status.verified)
             else Status.in_progress),
          Event.featureComplete featureId result.passes,
          Event.registryDelete featureId],
         Except.ok ())

/-- `verifyFeature` (lines 199-273): throws `AlreadyRunning` when the id
holds a handle; otherwise registers, loads, throws `NotFound` if absent,
emits start, invokes the test verifier once (`verify` is its outcome),
writes `verified` when the result passes and `in_progress` when it does
not (with no regard to the prior status), emits completion, and deletes
the handle in `finally`. -/
def verifyFeature (running : List String) (featureId : String) (features : List Feature)
    (verify : Except String RunResult) : List Event × Except String Bool :=
  if running.contains featureId then
    ([], Except.error ("Feature " ++ featureId ++ " is already running"))
  else
    match features.find? (fun f => f.id == featureId) with
    | none =>
      ([Event.registryAdd featureId, Event.errorEvent featureId, Event.registryDelete featureId],
       Except.error ("Feature " ++ featureId ++ " not found"))
    | some _feature =>
      match verify with
      | Except.error e =>
        ([Event.registryAdd featureId, Event.featureStart featureId,
          Event.invokeVerify featureId,
          Event.errorEvent featureId, Event.registryDelete featureId],
         Except.error e)
      | Except.ok result =>
        ([Event.registryAdd featureId, Event.featureStart featureId,
          Event.invokeVerify featureId,
          Event.setStatus featureId (if result.passes then Status.verified else Status.in_progress),
          Event.featureComplete featureId result.passes,
          Event.registryDelete featureId],
         Except.ok result.passes)

/-- `commitFeature` (lines 778-845): registers the id WITHOUT any
already-running check (a bare `Map.set`), loads, throws `NotFound` if
absent, emits start and a phase event, invokes the git commit through the
executor (`commit` is its outcome), then writes `verified`
unconditionally, emits completion, and deletes the handle in `finally`. -/
def commitFeature (running : List String) (featureId : String) (features : List Feature)
    (commit : Except String Unit) : List Event × Except String Unit :=
  match features.find? (fun f => f.id == featureId) with
  | none =>
    ([Event.registryAdd featureId, Event.errorEvent featureId, Event.registryDelete featureId],
     Except.error ("Feature " ++ featureId ++ " not found"))
  | some _feature =>
    match commit with
    | Except.error e =>
      ([Event.registryAdd featureId, Event.featureStart featureId, Event.progress featureId,
        Event.invokeCommit featureId,
        Event.errorEvent featureId, Event.registryDelete featureId],
       Except.error e)
    | Except.ok _ =>
      ([Event.registryAdd featureId, Event.featureStart featureId, Event.progress featureId,
        Event.invokeCommit featureId,
        Event.setStatus featureId Status.verified,
        Event.featureComplete featureId true,
        Event.registryDelete featureId],
       Except.ok ())

/-! ### Helper lemmas -/

lemma statusWrites_append (l1 l2 : List Event) :
    statusWrites (l1 ++ l2) = statusWrites l1 ++ statusWrites l2 := by
  induction l1 with
  | nil => rfl
  | cons e rest ih => cases e <;> simp [statusWrites, ih]

lemma registrySet_length (running : List String) (id : String) :
    (registrySet running id).length ≤ running.length + 1 := by
  unfold registrySet
  split <;> simp

lemma foldl_registrySet_length (sel : List Feature) (running : List String) :
    (sel.foldl (fun r f => registrySet r f.id) running).length ≤ running.length + sel.length := by
  induction sel generalizing running with
  | nil => simp
  | cons f rest ih =>
    simp only [List.foldl_cons, List.length_cons]
    have h1 := ih (registrySet running f.id)
    have h2 := registrySet_length running f.id
    omega

lemma releaseReg_noop (running : List String) (id : String)
    (h : running.contains id = false) : releaseReg running id = running := by
  have hm : ¬ (id ∈ running) := by simpa using h
  apply List.filter_eq_self.mpr
  intro a ha
  have hne : a ≠ id := fun hc => hm (hc ▸ ha)
  simp [hne]

lemma resumeLoop_attempts_le (loads : Nat → List Feature)
    (exec : Nat → Except String RunResult) (fid : String) :
    ∀ (fuel a : Nat) (r : RunResult), (resumeLoop loads exec fid fuel a r).2.1 ≤ a + fuel := by
  intro fuel
  induction fuel with
  | zero => intro a r; simp [resumeLoop]
  | succ n ih =>
    intro a r
    simp only [resumeLoop]
    split
    · simp
    · split
      · simp
      · split
        · split
          · simp
          · rename_i r2 _
            have := ih (a + 1) r2
            simp only []
            omega
        · simp

lemma resumeLoop_countInvoke_le (loads : Nat → List Feature)
    (exec : Nat → Except String RunResult) (fid : String) :
    ∀ (fuel a : Nat) (r : RunResult),
      countInvoke fid (resumeLoop loads exec fid fuel a r).1 ≤ fuel := by
  intro fuel
  induction fuel with
  | zero => intro a r; simp [resumeLoop, countInvoke]
  | succ n ih =>
    intro a r
    simp only [resumeLoop]
    split
    · simp [countInvoke]
    · split
      · simp [countInvoke]
      · split
        · split
          · simp [countInvoke]
          · rename_i r2 _
            have := ih (a + 1) r2
            simp only [countInvoke, beq_self_eq_true, if_pos]
            omega
        · simp [countInvoke]

lemma resumeLoop_statusWrites (loads : Nat → List Feature)
    (exec : Nat → Except String RunResult) (fid : String) :
    ∀ (fuel a : Nat) (r : RunResult),
      statusWrites (resumeLoop loads exec fid fuel a r).1 = [] := by
  intro fuel
  induction fuel with
  | zero => intro a r; simp [resumeLoop, statusWrites]
  | succ n ih =>
    intro a r
    simp only [resumeLoop]
    split
    · simp [statusWrites]
    · split
      · simp [statusWrites]
      · split
        · split
          · simp [statusWrites]
          · rename_i r2 _
            have := ih (a + 1) r2
            simp only [statusWrites]
            exact this
        · simp [statusWrites]

lemma resumeLoop_of_pass (loads : Nat → List Feature)
    (exec : Nat → Except String RunResult) (fid : String) (r : RunResult)
    (h : r.passes = true) :
    ∀ fuel a, resumeLoop loads exec fid fuel a r = ([], a, Except.ok r) := by
  intro fuel a
  cases fuel <;> simp [resumeLoop, h]

lemma resumeLoop_of_notfound (loads : Nat → List Feature)
    (exec : Nat → Except String RunResult) (fid : String) (r : RunResult) (a : Nat)
    (hp : r.passes = false)
    (hf : (loads (a + 1)).find? (fun f => f.id == fid) = none) :
    ∀ fuel, resumeLoop loads exec fid fuel a r = ([], a, Except.ok r) := by
  intro fuel
  cases fuel <;> simp [resumeLoop, hp, hf]

lemma resumeLoop_of_not_in_progress (loads : Nat → List Feature)
    (exec : Nat → Except String RunResult) (fid : String) (r : RunResult) (a : Nat)
    (f : Feature) (hp : r.passes = false)
    (hf : (loads (a + 1)).find? (fun g => g.id == fid) = some f)
    (hs : (f.status == Status.in_progress) = false) :
    ∀ fuel, resumeLoop loads exec fid fuel a r = ([], a, Except.ok r) := by
  intro fuel
  cases fuel <;> simp [resumeLoop, hp, hf, hs]

lemma startFeatureAsync_running (running : List String) (feature : Feature)
    (exec : Except String RunResult) :
    (startFeatureAsync running feature exec).2 = running := by
  unfold startFeatureAsync
  split
  · rfl
  · cases exec <;> rfl

lemma invoke_mem_startFeatureAsync (running : List String) (feature : Feature)
    (exec : Except String RunResult) (h : running.contains feature.id = false) :
    Event.invokeExec feature.id ∈ (startFeatureAsync running feature exec).1 := by
  unfold startFeatureAsync
  simp only [h]
  cases exec <;> simp

lemma invoke_mem_dispatchAll (running : List String)
    (exec : String → Except String RunResult) (f : Feature) :
    ∀ sel : List Feature, f ∈ sel → running.contains f.id = false →
      Event.invokeExec f.id ∈ dispatchAll running exec sel := by
  intro sel
  induction sel with
  | nil => intro h; exact absurd h (List.not_mem_nil f)
  | cons g rest ih =>
    intro hmem hc
    rcases List.mem_cons.mp hmem with h | h
    · subst h
      exact List.mem_append_left _ (invoke_mem_startFeatureAsync running f (exec f.id) hc)
    · apply List.mem_append_right
      rw [startFeatureAsync_running]
      exact ih h hc

/-! ### Claims -/

/-- C1 (amended): every item selected by the periodic admission loop
(`checkAndStartFeatures`) has status `backlog` at selection time.  The
loop performs no dependency check, so this is the whole of its readiness
filter. -/
theorem c1_admission_selects_backlog_only (maxConcurrency runningCount : Nat)
    (features : List Feature) (f : Feature)
    (h : f ∈ checkAndStartSelection maxConcurrency runningCount features) :
    f.status = Status.backlog := by
  unfold checkAndStartSelection at h
  split at h
  · exact absurd h (List.not_mem_nil f)
  · split at h
    · exact absurd h (List.not_mem_nil f)
    · have h2 := List.mem_of_mem_take h
      have h3 := List.of_mem_filter h2
      simpa using h3

/-- C1 witness: in a store holding a single backlog item, that item is
selected and `c1_admission_selects_backlog_only` yields its status. -/
theorem c1_admission_selects_backlog_only_witness :
    (Feature.mk "A" Status.backlog [] false) ∈ checkAndStartSelection 3 0
      [Feature.mk "A" Status.backlog [] false]
    ∧ (Feature.mk "A" Status.backlog [] false).status = Status.backlog :=
  ⟨by decide,
   c1_admission_selects_backlog_only 3 0 [Feature.mk "A" Status.backlog [] false]
     (Feature.mk "A" Status.backlog [] false) (by decide)⟩

/-- C1 counterexample: item `X` declares a dependency on item `Y`, `Y` is
present with status `backlog` (neither `verified` nor `completed`), yet
the admission loop selects `X` (and dispatches its executor), even though
`blockingDependencies(X, allItems)` is non-empty — the loop never calls
the dependency resolver. -/
theorem c1_counterexample :
    (Feature.mk "X" Status.backlog ["Y"] false) ∈ checkAndStartSelection 3 0
      [Feature.mk "X" Status.backlog ["Y"] false, Feature.mk "Y" Status.backlog [] false]
    ∧ getBlockingDependencies (Feature.mk "X" Status.backlog ["Y"] false)
        [Feature.mk "X" Status.backlog ["Y"] false, Feature.mk "Y" Status.backlog [] false] ≠ []
    ∧ Event.invokeExec "X" ∈ dispatchAll []
        (fun _ => Except.ok (RunResult.mk true ""))
        (checkAndStartSelection 3 0
          [Feature.mk "X" Status.backlog ["Y"] false,
           Feature.mk "Y" Status.backlog [] false]) := by
  refine ⟨by decide, by decide, by decide⟩

/-- C2 (amended): one admission tick by itself never raises the registry
count above `maxConcurrency`: the synchronous registration prefix of a
tick starting from a registry within capacity stays within capacity
(each tick admits at most `maxConcurrency - count` items). -/
theorem c2_tick_preserves_capacity (maxConcurrency : Nat) (running : List String)
    (features : List Feature) (h : running.length ≤ maxConcurrency) :
    (tickReserve maxConcurrency running features).length ≤ maxConcurrency := by
  unfold tickReserve checkAndStartSelection
  split
  · simpa using h
  · split
    · simpa using h
    · rename_i h1 h2
      have hfold := foldl_registrySet_length
        ((features.filter (fun f => f.status == Status.backlog)).take
          ((maxConcurrency : Int) - (running.length : Int)).toNat) running
      have hlen := List.length_take
        ((maxConcurrency : Int) - (running.length : Int)).toNat
        (features.filter (fun f => f.status == Status.backlog))
      omega

/-- C2 witness: a tick at `maxConcurrency = 2` with one handle live and
two backlog items admits only one of them, keeping the count at 2. -/
theorem c2_tick_preserves_capacity_witness :
    (["A"] : List String).length ≤ 2
    ∧ (tickReserve 2 ["A"]
        [Feature.mk "B" Status.backlog [] false,
         Feature.mk "C" Status.backlog [] false]).length ≤ 2 :=
  ⟨by decide,
   c2_tick_preserves_capacity 2 ["A"]
     [Feature.mk "B" Status.backlog [] false, Feature.mk "C" Status.backlog [] false]
     (by decide)⟩

/-- C2 counterexample: with `maxConcurrency = 1` and the registry already
at capacity (item `"A"` live), the manual `runFeature("B")` passes its
only guard (the per-id already-running check), registers `"B"`, and at the
instant after that registration two execution handles are live — the
manual operations never consult `maxConcurrency`. -/
theorem c2_counterexample :
    (runFeature ["A"] "B" [Feature.mk "B" Status.backlog [] false]
      (Except.ok (RunResult.mk true ""))).2 = Except.ok true
    ∧ (replayRegistry ["A"]
        ((runFeature ["A"] "B" [Feature.mk "B" Status.backlog [] false]
          (Except.ok (RunResult.mk true ""))).1.take 1)).length = 2
    ∧ ¬ ((replayRegistry ["A"]
        ((runFeature ["A"] "B" [Feature.mk "B" Status.backlog [] false]
          (Except.ok (RunResult.mk true ""))).1.take 1)).length ≤ 1) := by
  refine ⟨by rfl, by decide, by decide⟩

/-- C3: the auto-retry controller of `resumeFeature`.  (i) The attempt
counter never exceeds 3 and (ii) at most 3 retry invocations of the
executor occur; a retry happens only while (iii) the previous result did
not pass — a passing result stops the loop immediately — and the freshly
re-read store status is `in_progress`: the loop stops with no retry when
the re-read item is (iv) missing or (v) in any other status; and (vi)
when the loop's final result does not pass, the status `resumeFeature`
persists at the end is `in_progress`. -/
theorem c3_retry_controller (loads : Nat → List Feature)
    (exec : Nat → Except String RunResult) (fid : String) (r : RunResult) :
    (resumeLoop loads exec fid 3 0 r).2.1 ≤ 3
    ∧ countInvoke fid (resumeLoop loads exec fid 3 0 r).1 ≤ 3
    ∧ (r.passes = true → resumeLoop loads exec fid 3 0 r = ([], 0, Except.ok r))
    ∧ (r.passes = false → (loads 1).find? (fun f => f.id == fid) = none →
        resumeLoop loads exec fid 3 0 r = ([], 0, Except.ok r))
    ∧ (∀ f : Feature, r.passes = false →
        (loads 1).find? (fun g => g.id == fid) = some f →
        (f.status == Status.in_progress) = false →
        resumeLoop loads exec fid 3 0 r = ([], 0, Except.ok r))
    ∧ (∀ (running : List String) (feature : Feature) (res : RunResult),
        running.contains fid = false →
        (loads 0).find? (fun g => g.id == fid) = some feature →
        exec 0 = Except.ok r →
        (resumeLoop loads exec fid 3 0 r).2.2 = Except.ok res →
        res.passes = false →
        statusWrites (resumeFeature running fid loads exec).1 = [(fid, Status.in_progress)]) := by
  refine ⟨?_, ?_, ?_, ?_, ?_, ?_⟩
  · simpa using resumeLoop_attempts_le loads exec fid 3 0 r
  · exact resumeLoop_countInvoke_le loads exec fid 3 0 r
  · intro hp; exact resumeLoop_of_pass loads exec fid r hp 3 0
  · intro hp hf; exact resumeLoop_of_notfound loads exec fid r 0 hp hf 3
  · intro f hp hf hs; exact resumeLoop_of_not_in_progress loads exec fid r 0 f hp hf hs 3
  · intro running feature res hrun hfind hexec hloop hres
    rcases hL : resumeLoop loads exec fid 3 0 r with ⟨evs, a, res'⟩
    have hres' : res' = Except.ok res := by
      have := hloop
      rw [hL] at this
      exact this
    subst hres'
    have hsw : statusWrites evs = [] := by
      have := resumeLoop_statusWrites loads exec fid 3 0 r
      rw [hL] at this
      exact this
    simp only [resumeFeature, hrun, Bool.false_eq_true, if_false, hfind, hexec, hL]
    simp [statusWrites_append, statusWrites, hsw, hres]

/-- C3 witness: item `Z` stays `in_progress` in the store and every
executor attempt fails; the loop makes exactly its bounded retries and
`resumeFeature` persists `in_progress` at the end. -/
theorem c3_retry_controller_witness :
    (resumeLoop (fun _ => [Feature.mk "Z" Status.in_progress [] false])
      (fun _ => Except.ok (RunResult.mk false "early")) "Z" 3 0
      (RunResult.mk false "early")).2.1 ≤ 3
    ∧ statusWrites (resumeFeature [] "Z"
        (fun _ => [Feature.mk "Z" Status.in_progress [] false])
        (fun _ => Except.ok (RunResult.mk false "early"))).1
      = [("Z", Status.in_progress)] :=
  ⟨(c3_retry_controller (fun _ => [Feature.mk "Z" Status.in_progress [] false])
      (fun _ => Except.ok (RunResult.mk false "early")) "Z" (RunResult.mk false "early")).1,
   (c3_retry_controller (fun _ => [Feature.mk "Z" Status.in_progress [] false])
      (fun _ => Except.ok (RunResult.mk false "early")) "Z"
      (RunResult.mk false "early")).2.2.2.2.2 []
      (Feature.mk "Z" Status.in_progress [] false) (RunResult.mk false "early")
      (by decide) (by decide) (by rfl) (by rfl) (by decide)⟩

/-- C4: for a fresh (non-resume) run — admission dispatch
(`startFeatureAsync`) or manual run (`runFeature`) — the status written
after the run ends is `waiting_approval` when the result passes and the
item has `skipTests`, `verified` when it passes without `skipTests`, and
`backlog` when it does not pass (the only other write of the run is the
initial `in_progress`). -/
theorem c4_fresh_run_final_status (running : List String) (fid : String)
    (features : List Feature) (r : RunResult) :
    (∀ feature : Feature, running.contains fid = false →
      features.find? (fun f => f.id == fid) = some feature →
      statusWrites (runFeature running fid features (Except.ok r)).1 =
        [(fid, Status.in_progress),
         (feature.id,
          if r.passes then (if feature.skipTests then Status.waiting_approval else Status.verified)
          else Status.backlog)])
    ∧ (∀ feature : Feature, running.contains feature.id = false →
      statusWrites (startFeatureAsync running feature (Except.ok r)).1 =
        [(feature.id, Status.in_progress),
         (feature.id,
          if r.passes then (if feature.skipTests then Status.waiting_approval else Status.verified)
          else Status.backlog)]) := by
  constructor
  · intro feature h1 h2
    have h1m : ¬ (fid ∈ running) := by simpa using h1
    simp [runFeature, h1m, h2, statusWrites]
  · intro feature h1
    have h1m : ¬ (feature.id ∈ running) := by simpa using h1
    simp [startFeatureAsync, h1m, statusWrites]

/-- C4 witness: a failing fresh run of a backlog item writes `in_progress`
then `backlog`; a passing fresh run of a `skipTests` item dispatched by
the admission loop writes `in_progress` then `waiting_approval`. -/
theorem c4_fresh_run_final_status_witness :
    statusWrites (runFeature [] "A" [Feature.mk "A" Status.backlog [] false]
        (Except.ok (RunResult.mk false "tests failed"))).1
      = [("A", Status.in_progress), ("A", Status.backlog)]
    ∧ statusWrites (startFeatureAsync [] (Feature.mk "B" Status.backlog [] true)
        (Except.ok (RunResult.mk true "done"))).1
      = [("B", Status.in_progress), ("B", Status.waiting_approval)] := by
  constructor
  · have h := (c4_fresh_run_final_status [] "A" [Feature.mk "A" Status.backlog [] false]
      (RunResult.mk false "tests failed")).1 (Feature.mk "A" Status.backlog [] false)
      (by decide) (by decide)
    simpa using h
  · have h := (c4_fresh_run_final_status [] "B" [] (RunResult.mk true "done")).2
      (Feature.mk "B" Status.backlog [] true) (by decide)
    simpa using h

/-- C5 (amended): on the admission dispatch (`startFeatureAsync`), the
manual run (`runFeature`) and the follow-up (`followUpFeature`) paths,
every executor invocation is preceded by a persisted `in_progress` write
for the item; the resume path (`resumeFeature`) invokes the executor
without first writing `in_progress` (see the counterexample). -/
theorem c5_in_progress_before_exec (running : List String) (fid : String)
    (features : List Feature) :
    (∀ exec, execGuarded fid (runFeature running fid features exec).1 false = true)
    ∧ (∀ (feature : Feature) (exec : Except String RunResult),
        execGuarded feature.id (startFeatureAsync running feature exec).1 false = true)
    ∧ (∀ exec, execGuarded fid (followUpFeature running fid features exec).1 false = true) := by
  refine ⟨?_, ?_, ?_⟩
  · intro exec
    unfold runFeature
    split
    · rfl
    · cases hf : features.find? (fun f => f.id == fid) with
      | none => simp [execGuarded]
      | some feature => cases exec <;> simp [execGuarded]
  · intro feature exec
    unfold startFeatureAsync
    split
    · rfl
    · cases exec <;> simp [execGuarded]
  · intro exec
    unfold followUpFeature
    split
    · rfl
    · cases hf : features.find? (fun f => f.id == fid) with
      | none => simp [execGuarded]
      | some feature => cases exec <;> simp [execGuarded]

/-- C5 counterexample: `resumeFeature` of an `in_progress` item invokes
the executor with no preceding `in_progress` store write — in fact its
trace contains no status write at all before the executor invocation. -/
theorem c5_counterexample :
    execGuarded "A" (resumeFeature [] "A"
      (fun _ => [Feature.mk "A" Status.in_progress [] false])
      (fun _ => Except.ok (RunResult.mk true "done"))).1 false = false
    ∧ Event.invokeExec "A" ∈ (resumeFeature [] "A"
        (fun _ => [Feature.mk "A" Status.in_progress [] false])
        (fun _ => Except.ok (RunResult.mk true "done"))).1 := by
  refine ⟨by decide, by decide⟩

/-- C6 (amended): the explicit per-item operations `runFeature`,
`resumeFeature` and `followUpFeature` invoked for an id that already holds
a live execution handle fail immediately with the `AlreadyRunning` error
and perform nothing; `commitFeature` performs no such check: invoked for a
live id it registers over the existing handle and proceeds to the commit,
succeeding when the git commit succeeds. -/
theorem c6_already_running_check (running : List String) (fid : String)
    (h : running.contains fid = true) :
    (∀ features exec, runFeature running fid features exec
      = ([], Except.error ("Feature " ++ fid ++ " is already running")))
    ∧ (∀ loads exec, resumeFeature running fid loads exec
      = ([], Except.error ("Feature " ++ fid ++ " is already running")))
    ∧ (∀ features exec, followUpFeature running fid features exec
      = ([], Except.error ("Feature " ++ fid ++ " is already running")))
    ∧ (∀ (features : List Feature) (f : Feature) (commit : Except String Unit),
        features.find? (fun g => g.id == fid) = some f →
        Event.invokeCommit fid ∈ (commitFeature running fid features commit).1
        ∧ (commit = Except.ok () →
            (commitFeature running fid features commit).2 = Except.ok ())) := by
  have hm : fid ∈ running := by simpa using h
  refine ⟨?_, ?_, ?_, ?_⟩
  · intro features exec; simp [runFeature, hm]
  · intro loads exec; simp [resumeFeature, hm]
  · intro features exec; simp [followUpFeature, hm]
  · intro features f commit hf
    constructor
    · cases commit <;> simp [commitFeature, hf]
    · intro hc; subst hc; simp [commitFeature, hf]

/-- C6 witness: with item `"A"` live, `runFeature "A"` fails with the
`AlreadyRunning` error while `commitFeature "A"` proceeds and succeeds. -/
theorem c6_already_running_check_witness :
    runFeature ["A"] "A" [] (Except.ok (RunResult.mk true ""))
      = ([], Except.error "Feature A is already running")
    ∧ (commitFeature ["A"] "A" [Feature.mk "A" Status.waiting_approval [] false]
        (Except.ok ())).2 = Except.ok () := by
  constructor
  · have h := (c6_already_running_check ["A"] "A" (by decide)).1 []
      (Except.ok (RunResult.mk true ""))
    simpa using h
  · exact ((c6_already_running_check ["A"] "A" (by decide)).2.2.2
      [Feature.mk "A" Status.waiting_approval [] false]
      (Feature.mk "A" Status.waiting_approval [] false)
      (Except.ok ()) (by decide)).2 rfl

/-- C6 counterexample: `commitFeature` invoked for an id that already
holds a live execution handle does not fail with `AlreadyRunning`: it
proceeds, invokes the git commit, and returns success. -/
theorem c6_counterexample :
    (commitFeature ["A"] "A" [Feature.mk "A" Status.waiting_approval [] false]
      (Except.ok ())).2 = Except.ok ()
    ∧ Event.invokeCommit "A" ∈ (commitFeature ["A"] "A"
        [Feature.mk "A" Status.waiting_approval [] false] (Except.ok ())).1 := by
  refine ⟨by rfl, by decide⟩

/-- C7: every per-item run that began (non-empty trace) ends by deleting
the item's handle from the registry — the `finally` block — whether it
ended in success, a non-passing result, `NotFound`, or a thrown executor
error, on all six per-item operations; and releasing an id with no
registered handle (`Map.delete`) is a no-op, not an error. -/
theorem c7_guaranteed_release (running : List String) (fid : String)
    (features : List Feature) :
    (∀ exec, (runFeature running fid features exec).1 ≠ [] →
      (runFeature running fid features exec).1.getLast? = some (Event.registryDelete fid))
    ∧ (∀ (feature : Feature) (exec : Except String RunResult),
        (startFeatureAsync running feature exec).1 ≠ [] →
        (startFeatureAsync running feature exec).1.getLast?
          = some (Event.registryDelete feature.id))
    ∧ (∀ loads exec, (resumeFeature running fid loads exec).1 ≠ [] →
        (resumeFeature running fid loads exec).1.getLast? = some (Event.registryDelete fid))
    ∧ (∀ exec, (followUpFeature running fid features exec).1 ≠ [] →
        (followUpFeature running fid features exec).1.getLast?
          = some (Event.registryDelete fid))
    ∧ (∀ verify, (verifyFeature running fid features verify).1 ≠ [] →
        (verifyFeature running fid features verify).1.getLast?
          = some (Event.registryDelete fid))
    ∧ (∀ commit, (commitFeature running fid features commit).1.getLast?
        = some (Event.registryDelete fid))
    ∧ (running.contains fid = false → releaseReg running fid = running) := by
  refine ⟨?_, ?_, ?_, ?_, ?_, ?_, ?_⟩
  · intro exec
    unfold runFeature
    split
    · intro h; exact absurd rfl h
    · intro _
      cases features.find? (fun f => f.id == fid) with
      | none => rfl
      | some feature => cases exec <;> rfl
  · intro feature exec
    unfold startFeatureAsync
    split
    · intro h; exact absurd rfl h
    · intro _
      cases exec <;> rfl
  · intro loads exec
    unfold resumeFeature
    split
    · intro h; exact absurd rfl h
    · intro _
      cases (loads 0).find? (fun f => f.id == fid) with
      | none => rfl
      | some feature =>
        cases exec 0 with
        | error e => rfl
        | ok result =>
          rcases hL : resumeLoop loads exec fid 3 0 result with ⟨evs, a, res⟩
          cases res with
          | error e =>
            simp only [hL]
            rw [show ([Event.registryAdd fid, Event.featureStart fid, Event.invokeExec fid]
              ++ evs ++ [Event.errorEvent fid, Event.registryDelete fid])
              = ([Event.registryAdd fid, Event.featureStart fid, Event.invokeExec fid] ++ evs)
                ++ [Event.errorEvent fid, Event.registryDelete fid] from by simp,
              List.getLast?_append]
            rfl
          | ok finalResult =>
            simp only [hL]
            rw [List.getLast?_append]
            rfl
  · intro exec
    unfold followUpFeature
    split
    · intro h; exact absurd rfl h
    · intro _
      cases features.find? (fun f => f.id == fid) with
      | none => rfl
      | some feature => cases exec <;> rfl
  · intro verify
    unfold verifyFeature
    split
    · intro h; exact absurd rfl h
    · intro _
      cases features.find? (fun f => f.id == fid) with
      | none => rfl
      | some feature => cases verify <;> rfl
  · intro commit
    unfold commitFeature
    cases features.find? (fun f => f.id == fid) with
    | none => rfl
    | some feature => cases commit <;> rfl
  · exact releaseReg_noop running fid

/-- C7 witness: a `NotFound` manual run still releases its handle last; a
resume through the full retry loop releases its handle last; releasing the
unregistered id `"B"` leaves the registry `["A"]` unchanged. -/
theorem c7_guaranteed_release_witness :
    (runFeature [] "A" [] (Except.ok (RunResult.mk true ""))).1.getLast?
      = some (Event.registryDelete "A")
    ∧ (resumeFeature [] "Z" (fun _ => [Feature.mk "Z" Status.in_progress [] false])
        (fun _ => Except.ok (RunResult.mk false ""))).1.getLast?
      = some (Event.registryDelete "Z")
    ∧ releaseReg ["A"] "B" = ["A"] := by
  refine ⟨?_, ?_, ?_⟩
  · exact (c7_guaranteed_release [] "A" []).1 (Except.ok (RunResult.mk true "")) (by decide)
  · exact (c7_guaranteed_release [] "Z" []).2.2.1
      (fun _ => [Feature.mk "Z" Status.in_progress [] false])
      (fun _ => Except.ok (RunResult.mk false "")) (by decide)
  · exact (c7_guaranteed_release ["A"] "B" []).2.2.2.2.2.2 (by decide)

/-- C8: when the executor throws during an admitted run
(`startFeatureAsync` with an erroring executor), the exception stays
inside that item's task: an error lifecycle event is published for the
item, the error path writes no status (the only write of the trace is the
pre-run `in_progress`), the handle is released last, the task returns
normally; and every other feature selected in the same admission tick
still has its executor invoked, whatever errors the other executors
throw. -/
theorem c8_executor_error_isolated (running : List String) (features : List Feature)
    (maxConcurrency : Nat) :
    (∀ (feature : Feature) (e : String), running.contains feature.id = false →
      Event.errorEvent feature.id ∈ (startFeatureAsync running feature (Except.error e)).1
      ∧ statusWrites (startFeatureAsync running feature (Except.error e)).1
          = [(feature.id, Status.in_progress)]
      ∧ (startFeatureAsync running feature (Except.error e)).1.getLast?
          = some (Event.registryDelete feature.id)
      ∧ (startFeatureAsync running feature (Except.error e)).2 = running)
    ∧ (∀ (exec : String → Except String RunResult) (f : Feature),
        f ∈ checkAndStartSelection maxConcurrency running.length features →
        running.contains f.id = false →
        Event.invokeExec f.id ∈ dispatchAll running exec
          (checkAndStartSelection maxConcurrency running.length features)) := by
  constructor
  · intro feature e h
    have hm : ¬ (feature.id ∈ running) := by simpa using h
    refine ⟨?_, ?_, ?_, ?_⟩
    · simp [startFeatureAsync, hm]
    · simp [startFeatureAsync, hm, statusWrites]
    · simp [startFeatureAsync, hm]
    · simp [startFeatureAsync, hm]
  · intro exec f hmem hc
    exact invoke_mem_dispatchAll running exec f _ hmem hc

/-- C8 witness: at `maxConcurrency = 2` with an empty registry, items `X`
and `Y` are both dispatched; `X`'s executor throws (error event published,
only the `in_progress` write, handle released) while `Y`'s executor is
still invoked. -/
theorem c8_executor_error_isolated_witness :
    (Event.errorEvent "X" ∈ (startFeatureAsync [] (Feature.mk "X" Status.backlog [] false)
        (Except.error "boom")).1
      ∧ statusWrites (startFeatureAsync [] (Feature.mk "X" Status.backlog [] false)
          (Except.error "boom")).1 = [("X", Status.in_progress)]
      ∧ (startFeatureAsync [] (Feature.mk "X" Status.backlog [] false)
          (Except.error "boom")).1.getLast? = some (Event.registryDelete "X")
      ∧ (startFeatureAsync [] (Feature.mk "X" Status.backlog [] false)
          (Except.error "boom")).2 = [])
    ∧ Event.invokeExec "Y" ∈ dispatchAll []
        (fun id => if id == "X" then Except.error "boom" else Except.ok (RunResult.mk true ""))
        (checkAndStartSelection 2 ([] : List String).length
          [Feature.mk "X" Status.backlog [] false, Feature.mk "Y" Status.backlog [] false]) := by
  constructor
  · exact (c8_executor_error_isolated [] [] 2).1 (Feature.mk "X" Status.backlog [] false)
      "boom" (by decide)
  · exact (c8_executor_error_isolated []
      [Feature.mk "X" Status.backlog [] false, Feature.mk "Y" Status.backlog [] false] 2).2
      (fun id => if id == "X" then Except.error "boom" else Except.ok (RunResult.mk true ""))
      (Feature.mk "Y" Status.backlog [] false) (by decide) (by decide)

/-- C9 (amended): on its success path `commitFeature` writes exactly one
status, `verified`, whatever the item's prior status was — so the item's
status is unchanged only when it was already `verified`; when the item is
missing or the git commit throws, no status is written. -/
theorem c9_commit_writes_verified (running : List String) (fid : String)
    (features : List Feature) (commit : Except String Unit) :
    (∀ f : Feature, features.find? (fun g => g.id == fid) = some f →
      commit = Except.ok () →
      statusWrites (commitFeature running fid features commit).1 = [(fid, Status.verified)])
    ∧ (features.find? (fun g => g.id == fid) = none →
      statusWrites (commitFeature running fid features commit).1 = [])
    ∧ (∀ e : String, commit = Except.error e →
      statusWrites (commitFeature running fid features commit).1 = []) := by
  refine ⟨?_, ?_, ?_⟩
  · intro f hf hc
    subst hc
    simp [commitFeature, hf, statusWrites]
  · intro hf
    simp [commitFeature, hf, statusWrites]
  · intro e hc
    subst hc
    cases hf : features.find? (fun g => g.id == fid) <;>
      simp [commitFeature, hf, statusWrites]

/-- C9 witness: committing a `verified` item writes `verified` again — the
one case in which commit indeed changes nothing. -/
theorem c9_commit_writes_verified_witness :
    statusWrites (commitFeature [] "A" [Feature.mk "A" Status.verified [] false]
        (Except.ok ())).1 = [("A", Status.verified)]
    ∧ applyEvents [Feature.mk "A" Status.verified [] false]
        (commitFeature [] "A" [Feature.mk "A" Status.verified [] false] (Except.ok ())).1
      = [Feature.mk "A" Status.verified [] false] :=
  ⟨(c9_commit_writes_verified [] "A" [Feature.mk "A" Status.verified [] false]
      (Except.ok ())).1 (Feature.mk "A" Status.verified [] false) (by decide) rfl,
   by decide⟩

/-- C9 counterexample: `commitFeature` on an item whose status is
`waiting_approval` changes its stored status to `verified` — the commit
operation does perform a status change, refuting "status after equals
status before" for every item. -/
theorem c9_counterexample :
    (applyEvents [Feature.mk "A" Status.waiting_approval [] false]
        (commitFeature [] "A" [Feature.mk "A" Status.waiting_approval [] false]
          (Except.ok ())).1).map Feature.status = [Status.verified]
    ∧ Status.verified ≠ Status.waiting_approval := by
  refine ⟨by decide, by decide⟩

/-- C10: `verifyFeature` writes exactly one status for the item —
`verified` when the test result passes, `in_progress` when it does not —
regardless of the item's prior status. -/
theorem c10_verify_sets_status (running : List String) (fid : String)
    (features : List Feature) (f : Feature) (result : RunResult)
    (h1 : running.contains fid = false)
    (h2 : features.find? (fun g => g.id == fid) = some f) :
    statusWrites (verifyFeature running fid features (Except.ok result)).1
      = [(fid, if result.passes then Status.verified else Status.in_progress)] := by
  have h1m : ¬ (fid ∈ running) := by simpa using h1
  simp [verifyFeature, h1m, h2, statusWrites]

/-- C10 witness: verifying a `backlog` item with failing tests writes
`in_progress`; verifying a `waiting_approval` item with passing tests
writes `verified`. -/
theorem c10_verify_sets_status_witness :
    statusWrites (verifyFeature [] "A" [Feature.mk "A" Status.backlog [] false]
        (Except.ok (RunResult.mk false "fail"))).1 = [("A", Status.in_progress)]
    ∧ statusWrites (verifyFeature [] "B" [Feature.mk "B" Status.waiting_approval [] true]
        (Except.ok (RunResult.mk true "ok"))).1 = [("B", Status.verified)] := by
  constructor
  · have h := c10_verify_sets_status [] "A" [Feature.mk "A" Status.backlog [] false]
      (Feature.mk "A" Status.backlog [] false) (RunResult.mk false "fail")
      (by decide) (by decide)
    simpa using h
  · have h := c10_verify_sets_status [] "B" [Feature.mk "B" Status.waiting_approval [] true]
      (Feature.mk "B" Status.waiting_approval [] true) (RunResult.mk true "ok")
      (by decide) (by decide)
    simpa using h
